import Mathlib

/-!
# Verification of go-hotfix/assembly

A shallow embedding of the `assembly` package (DWARF-based introspection and
dynamic invocation for a running Go process), translated from the Go source:

* `CallFunc` / `FindFuncType` / `FindFunc` / `findFunc` and the argument
  validation loop (`assembly-funcs.go`, and its later revision in the
  unnamed source part with the richer mismatch message);
* `dwarfToRuntimeType` / `findImageType` (`assembly-types.go`);
* `resolveTypedef` (`delve.go`);
* `LoadImage` / `refreshModules` / `Close` and the lazily built globals
  table (`FindGlobal` / `ForeachGlobal` / `loadGlobals`).

External collaborators (the delve debug-info reader, Go `reflect`, the OS
loader) are modelled as explicit parameters: debug-info lookups become
functions supplied in an environment record, Go machine integers become
`Nat` with `% 2 ^ 64` where the source can overflow, Go `nil` slices/maps
become empty lists / `Option`, and Go panics become a distinguished
`panicked` outcome.
-/

namespace Assembly

/-! ## reflect.Type model

Only the structure the source inspects is represented: a type is either a
slice (the one kind `reflect.Type.Elem` is applied to here and the one kind
`reflect.FuncOf` accepts as the trailing variadic parameter) or an opaque
base type identified by its `String()` rendering. -/

/-- Model of a Go `reflect.Type` as used by the invocation engine. -/
inductive RType where
  | base : String → RType
  | slice : RType → RType
  deriving DecidableEq, Repr, Inhabited

/-- Go `reflect.Type.String()`. -/
def RType.str : RType → String
  | .base s => s
  | .slice t => "[]" ++ t.str

/-- Go `reflect.Type.Elem()`: defined for slice types, a Go panic (modelled as
`none`) on base types. -/
def RType.elem : RType → Option RType
  | .base _ => none
  | .slice t => some t

/-- Go `reflect.Type.Kind() == reflect.Slice`. -/
def RType.isSlice : RType → Bool
  | .base _ => false
  | .slice _ => true

/-! ## Errors and outcomes -/

/-- The error values produced by the package: the sentinel errors of
`assembly.go` plus the structured contents of the `fmt.Errorf` messages in
`CallFunc` (`"len mismatch %d"` and
`"type mismatch arg: %d:%s, except: %s, got: %s"`) and the wrapped
signature-resolution errors. -/
inductive CallError where
  | notFound
  | notSupport
  | tooManyLibraries
  | resolveErr : String → CallError
  | lenMismatch : Nat → CallError
  /-- index, parameter name, expected type name, actual type name. -/
  | typeMismatch : Nat → String → String → String → CallError
  deriving DecidableEq, Repr

/-- Result of running a fallible Go computation that may also panic. -/
inductive Outcome (α : Type) where
  | panicked : String → Outcome α
  | failed : CallError → Outcome α
  | ok : α → Outcome α
  deriving DecidableEq, Repr

/-! ## Function descriptors and signatures -/

/-- The fields of delve's `proc.Function` that the source reads. -/
structure ProcFunction where
  name : String
  entry : Nat
  deriving DecidableEq, Repr

/-- Result of `getFunctionArgTypes`: input/output `reflect.Type` lists and
the parallel name lists, built in lockstep by the source's append loop. -/
structure FuncSig where
  inTyps : List RType
  outTyps : List RType
  inNames : List String
  outNames : List String
  deriving DecidableEq, Repr

/-- The function type produced by `reflect.FuncOf`. -/
structure FuncTy where
  inTyps : List RType
  outTyps : List RType
  variadic : Bool
  deriving DecidableEq, Repr

/-- Result of `CreateFuncForCodePtr`: a `reflect.Value` of function type whose code
pointer has been forcibly set to `codePtr` (`delve.go`). -/
structure FuncValue where
  ftyp : FuncTy
  codePtr : Nat
  deriving DecidableEq, Repr

/-- Whether a non-empty input list ends in a slice type. -/
def lastIsSlice (l : List RType) : Bool :=
  match l.getLast? with
  | some t => t.isSlice
  | none => false

/-- Go `reflect.FuncOf(in, out, variadic)`: panics (modelled as `none`) when
`variadic` is set and the final input type is absent or not a slice. -/
def reflectFuncOf (inTyps outTyps : List RType) (variadic : Bool) : Option FuncTy :=
  if variadic && !lastIsSlice inTyps then none
  else some ⟨inTyps, outTyps, variadic⟩

/-- Model of `CreateFuncForCodePtr ftyp pc`. -/
def createFuncForCodePtr (ftyp : FuncTy) (codePtr : Nat) : FuncValue :=
  ⟨ftyp, codePtr⟩

/-! ## The argument validation loop of `CallFunc` -/

/-- Result of the `getInTyp` closure inside `CallFunc`: the `nil, ""` case
(`missing`), the `reflect.Type.Elem` panic on a non-slice final input
(`panicElem`), or a parameter type and name. -/
inductive InTypRes where
  | missing
  | panicElem
  | found : RType → String → InTypRes
  deriving DecidableEq, Repr

/-- The `getInTyp` closure of `CallFunc`, branch for branch:

```go
if len(inTyps) <= 0 { return nil, "" }
if i < len(inTyps)-1 { return inTyps[i], inNames[i] }
if variadic { return inTyps[len(inTyps)-1].Elem(), inNames[len(inNames)-1] }
if i < len(inTyps) { return inTyps[i], inNames[i] }
return nil, ""
```

In the source `inTyps` and `inNames` are always the same length (they are
appended in lockstep), so the `getD` defaults are never reached on the
name side when that invariant holds. -/
def getInTyp (variadic : Bool) (inTyps : List RType) (inNames : List String)
    (i : Nat) : InTypRes :=
  if inTyps.length ≤ 0 then .missing
  else if i < inTyps.length - 1 then
    .found (inTyps.getD i (.base "")) (inNames.getD i "")
  else if variadic then
    match (inTyps.getD (inTyps.length - 1) (.base "")).elem with
    | some e => .found e (inNames.getD (inNames.length - 1) "")
    | none => .panicElem
  else if i < inTyps.length then
    .found (inTyps.getD i (.base "")) (inNames.getD i "")
  else .missing

/-- Result of the `for i, arg := range args` validation loop. -/
inductive CheckRes where
  | ok
  | panicElem
  | err : CallError → CheckRes
  deriving DecidableEq, Repr

/-- The validation loop of `CallFunc`: each supplied argument is checked
against `getInTyp`; a `nil` type is a `"len mismatch %d"` error and a
failed `AssignableTo` is a
`"type mismatch arg: %d:%s, except: %s, got: %s"` error.  `asg` is Go's
`reflect.Type.AssignableTo`, supplied as an oracle.  Arguments are
represented by their `reflect.Value.Type()`. -/
def checkArgs (asg : RType → RType → Bool) (variadic : Bool)
    (inTyps : List RType) (inNames : List String) :
    Nat → List RType → CheckRes
  | _, [] => .ok
  | i, a :: rest =>
    match getInTyp variadic inTyps inNames i with
    | .missing => .err (.lenMismatch i)
    | .panicElem => .panicElem
    | .found t nm =>
      if asg a t then checkArgs asg variadic inTyps inNames (i + 1) rest
      else .err (.typeMismatch i nm t.str a.str)

/-- Go `reflect.Value.Call(args)` on a function value of `inCount` inputs:
panics unless the argument count fits the (possibly variadic) signature;
otherwise the call is performed at `entry` with `args`. -/
def reflectCall (entry : Nat) (inCount : Nat) (variadic : Bool)
    (args : List RType) : Outcome (Nat × List RType) :=
  if variadic then
    if args.length + 1 < inCount then
      .panicked "reflect: Call with too few input arguments"
    else .ok (entry, args)
  else
    if args.length < inCount then
      .panicked "reflect: Call with too few input arguments"
    else if inCount < args.length then
      .panicked "reflect: Call with too many input arguments"
    else .ok (entry, args)

/-! ## The dwarfAssembly environment and the function-lookup pipeline

`binaryInfo.FindFunction` and `getFunctionArgTypes` walk delve's debug-info
structures; they are supplied as oracles, as is `AssignableTo`. -/

/-- The debug-info-facing capabilities of a `dwarfAssembly` value. -/
structure DwarfAssemblyEnv where
  /-- Oracle for `binaryInfo.FindFunction name`: all debug-info matches for `name`, in
  enumeration order; a Go `nil` slice is the empty list. -/
  findFunction : String → List ProcFunction
  /-- Oracle for `getFunctionArgTypes f`: signature derivation for a found function. -/
  argTypes : ProcFunction → Except String FuncSig
  /-- Oracle for `reflect.Type.AssignableTo`. -/
  assignable : RType → RType → Bool

/-- Model of `findFunc`:

```go
if fns, _ := da.binaryInfo.FindFunction(name); nil != fns {
    return fns[len(fns)-1], nil
}
return nil, ErrNotFound
``` -/
def findFunc (fns : List ProcFunction) : Except CallError ProcFunction :=
  match fns.getLast? with
  | some f => .ok f
  | none => .error .notFound

/-- Model of `FindFuncEntry`. -/
def findFuncEntry (env : DwarfAssemblyEnv) (name : String) :
    Except CallError ProcFunction :=
  findFunc (env.findFunction name)

/-- Model of `FindFuncPc`. -/
def findFuncPc (env : DwarfAssemblyEnv) (name : String) : Except CallError Nat :=
  match findFunc (env.findFunction name) with
  | .error e => .error e
  | .ok f => .ok f.entry

/-- The stages of `FindFuncType` after `findFunc` succeeded. -/
def findFuncTypeFrom (env : DwarfAssemblyEnv) (f : ProcFunction)
    (variadic : Bool) : Outcome FuncTy :=
  match env.argTypes f with
  | .error msg => .failed (.resolveErr msg)
  | .ok sig =>
    match reflectFuncOf sig.inTyps sig.outTyps variadic with
    | none => .panicked "reflect.FuncOf: last arg of variadic func must be slice"
    | some t => .ok t

/-- Model of `FindFuncType`. -/
def findFuncType (env : DwarfAssemblyEnv) (name : String) (variadic : Bool) :
    Outcome FuncTy :=
  match findFunc (env.findFunction name) with
  | .error e => .failed e
  | .ok f => findFuncTypeFrom env f variadic

/-- Model of `FindFunc`: entry address via `FindFuncPc`, type via `FindFuncType`,
then `CreateFuncForCodePtr`. -/
def findFuncValue (env : DwarfAssemblyEnv) (name : String) (variadic : Bool) :
    Outcome FuncValue :=
  match findFuncPc env name with
  | .error e => .failed e
  | .ok pc =>
    match findFuncType env name variadic with
    | .panicked s => .panicked s
    | .failed e => .failed e
    | .ok t => .ok (createFuncForCodePtr t pc)

/-- The stages of `CallFunc` after `findFunc` succeeded: signature
derivation, `reflect.FuncOf`, trampoline construction, the validation
loop, then `newFunc.Call(args)`. -/
def callFuncFrom (env : DwarfAssemblyEnv) (f : ProcFunction) (variadic : Bool)
    (args : List RType) : Outcome (Nat × List RType) :=
  match env.argTypes f with
  | .error msg => .failed (.resolveErr msg)
  | .ok sig =>
    match reflectFuncOf sig.inTyps sig.outTyps variadic with
    | none => .panicked "reflect.FuncOf: last arg of variadic func must be slice"
    | some _ =>
      match checkArgs env.assignable variadic sig.inTyps sig.inNames 0 args with
      | .panicElem => .panicked "reflect: Elem of invalid type"
      | .err e => .failed e
      | .ok => reflectCall f.entry sig.inTyps.length variadic args

/-- Model of `CallFunc`. A successful outcome `ok (entry, args)` means the
constructed trampoline at `entry` was invoked with `args`. -/
def callFunc (env : DwarfAssemblyEnv) (name : String) (variadic : Bool)
    (args : List RType) : Outcome (Nat × List RType) :=
  match findFunc (env.findFunction name) with
  | .error e => .failed e
  | .ok f => callFuncFrom env f variadic args

/-! ## godwarf type descriptors and `resolveTypedef` (`delve.go`)

Debug-info type descriptors are an inductive, so every descriptor is
finite and acyclic, matching the premise under which the source's
unwrapping loop terminates.  Only the constructors `resolveTypedef`
distinguishes are separated; everything else is summarised by the
non-wrapper constructors. -/

/-- Model of `godwarf.Type`. -/
inductive GodwarfType where
  | typedefType : String → GodwarfType → GodwarfType
  | qualType : String → GodwarfType → GodwarfType
  | parametricType : GodwarfType → GodwarfType
  | ptrType : GodwarfType → GodwarfType
  | structType : String → GodwarfType
  | enumType : String → GodwarfType
  | baseType : String → GodwarfType
  deriving DecidableEq, Repr

/-- Model of `resolveTypedef`:

```go
for {
    switch tt := typ.(type) {
    case *godwarf.TypedefType: typ = tt.Type
    case *godwarf.QualType: typ = tt.Type
    case *godwarf.ParametricType: typ = tt.Type
    default: return typ
    }
}
``` -/
def resolveTypedef : GodwarfType → GodwarfType
  | .typedefType _ t => resolveTypedef t
  | .qualType _ t => resolveTypedef t
  | .parametricType t => resolveTypedef t
  | .ptrType t => .ptrType t
  | .structType n => .structType n
  | .enumType n => .enumType n
  | .baseType n => .baseType n

/-- One of the wrapper shapes `resolveTypedef` unwraps. -/
def GodwarfType.isWrapper : GodwarfType → Bool
  | .typedefType _ _ => true
  | .qualType _ _ => true
  | .parametricType _ => true
  | _ => false

/-! ## Type resolution (`assembly-types.go`)

`dwarfToRuntimeType` correlates a debug-info type entry with the live
runtime's type table.  The delve-side readers are modelled as fields of a
`TypeImage`; Go `uint64` arithmetic is `Nat` with `% 2 ^ 64`. -/

/-- The fields of delve's `moduleData` mirror that the source reads
(`ModuleData` in `delve.go`). -/
structure ModuleData where
  text : Nat
  etext : Nat
  types : Nat
  etypes : Nat
  deriving DecidableEq, Repr

/-- A DWARF entry as the source consumes it: the optional `AttrName`
string and the optional non-type-asserted `AttrGoRuntimeType` value. -/
structure DwarfEntry where
  name : Option String
  goRuntimeType : Option Nat
  deriving DecidableEq, Repr

/-- One loaded image, as seen by the type resolver: `readAt off` models
`img.DwarfReader(); Seek(off); Next()` (with read errors and missing
entries as `none`), `runtimeTypeToDIE` is the image's
`runtimeTypeToDIE` map as the pairs `(runtime type address, DIE offset)`
in iteration order, and `md` is `imageToModuleData`'s answer for the
image. -/
structure TypeImage where
  readAt : Nat → Option DwarfEntry
  runtimeTypeToDIE : List (Nat × Nat)
  md : Option ModuleData

/-- Go map assignment `m[k] = v`: the newest binding shadows older ones
under `mapGet`'s first-match lookup. -/
def mapInsert (m : List (String × Nat)) (k : String) (v : Nat) :
    List (String × Nat) :=
  (k, v) :: m

/-- Go map read `m[k]` on a `map[string]uint64`: the zero value `0` when
the key is absent. -/
def mapGet (m : List (String × Nat)) (k : String) : Nat :=
  (m.lookup k).getD 0

/-- The cache-population loop of `findImageType`: when `imageToModuleData`
answers `nil` the source returns `0` before the loop, leaving the cache
empty; otherwise each `runtimeTypeToDIE` pair whose DIE has a name and
whose key is non-zero contributes `md.types + k` (64-bit wraparound),
clamped back to the raw key when the sum escapes `[md.types, md.etypes)`:

```go
typeAddr := md.types + k.Uint()
if typeAddr < md.types || typeAddr >= md.etypes {
    cache[entryName] = k.Uint()
} else {
    cache[entryName] = typeAddr
}
``` -/
def buildImageTypeCache (img : TypeImage) : List (String × Nat) :=
  match img.md with
  | none => []
  | some md =>
    img.runtimeTypeToDIE.foldl
      (fun cache kv =>
        match img.readAt kv.2 with
        | none => cache
        | some entry =>
          match entry.name with
          | none => cache
          | some entryName =>
            if kv.1 = 0 then cache
            else
              let typeAddr := (md.types + kv.1) % 2 ^ 64
              if typeAddr < md.types ∨ typeAddr ≥ md.etypes then
                mapInsert cache entryName kv.1
              else mapInsert cache entryName typeAddr)
      []

/-- Model of `findImageType img name`: the cached name-to-address table for `img`,
read at `name` (the memoization in `da.imageTypes` returns the same table
on every call, so only its content matters here). -/
def findImageType (img : TypeImage) (name : String) : Nat :=
  mapGet (buildImageTypeCache img) name

/-- The `for i, img := range bi.Images` fallback loop of
`dwarfToRuntimeType`, carrying the running index so that the `i == 0`
(primary image) skip is taken exactly once. -/
def fallbackGo (name : String) : Nat → List TypeImage → Except String Nat
  | _, [] => .error ("could not find runtime type for type:" ++ name)
  | i, img :: rest =>
    if i = 0 then fallbackGo name (i + 1) rest
    else if findImageType img name ≠ 0 then .ok (findImageType img name)
    else fallbackGo name (i + 1) rest

/-- The fallback scan over all loaded images, starting at index `0`. -/
def fallbackScan (images : List TypeImage) (name : String) : Except String Nat :=
  fallbackGo name 0 images

/-- Model of `dwarfToRuntimeType` (`assembly-types.go`), for a `godwarf.Type` whose
`Common()` carries image `index` and DWARF `offset`:

* image bounds check, entry read, `AttrName` check against `name`;
* a present, non-zero `AttrGoRuntimeType` back-reference resolves through
  the image's module record with the 64-bit sum `md.types + off`, clamped
  to the raw `off` when the sum escapes `[md.types, md.etypes)`;
* otherwise the fallback scan over the non-primary images. -/
def dwarfToRuntimeType (images : List TypeImage) (index offset : Nat)
    (name : String) : Except String Nat :=
  match images[index]? with
  | none => .error ("could not find image for type " ++ name)
  | some img =>
    match img.readAt offset with
    | none => .error ("could not find dwarf entry for type:" ++ name)
    | some e =>
      match e.name with
      | none => .error ("could not find name for type:" ++ name)
      | some entryName =>
        if entryName ≠ name then
          .error ("could not find name for type:" ++ name)
        else if e.goRuntimeType.getD 0 = 0 then fallbackScan images name
        else
          match img.md with
          | none => .error ("could not find module data for type " ++ name)
          | some md =>
            let typeAddr := (md.types + e.goRuntimeType.getD 0) % 2 ^ 64
            if typeAddr < md.types ∨ typeAddr ≥ md.etypes then
              .ok (e.goRuntimeType.getD 0)
            else .ok typeAddr

/-- Specification-side formulation of the fallback ("scanning every
non-primary loaded image ... returning the first hit"): the first image in
the list whose type table yields a non-zero address for `name`. -/
def firstHit (name : String) : List TypeImage → Option Nat
  | [] => none
  | img :: rest =>
    if findImageType img name ≠ 0 then some (findImageType img name)
    else firstHit name rest

/-! ## Image registry and caches (unnamed part 002 / part 001)

The mutable fields of `dwarfAssembly` are a record; images are identified
by opaque tags (`Nat`), a Go `nil` map or slice is `none` / `[]`, and the
delve-side `LoadBinaryInfo` / `AddImage` / `loadModuleData` calls are
abstracted: both load paths append the image to `binaryInfo.Images`, and
`loadModuleData` is a supplied function of the image list.  Global values
are identified by the address stored in the rebuilt table (a `Nat`). -/

/-- The mutable state of a `dwarfAssembly`:

```go
type dwarfAssembly struct {
    binaryInfo *proc.BinaryInfo
    modules    []ModuleData
    globals    map[string]reflect.Value
    imageTypes map[*proc.Image]map[string]uint64
}
```

`binaryClosed` records that `binaryInfo.Close()` was called (releasing the
image handles); no method of the source ever reads such a flag back. -/
structure DAState where
  images : List Nat
  modules : List ModuleData
  globals : Option (List (String × Nat))
  imageTypes : Option (List (Nat × List (String × Nat)))
  binaryClosed : Bool
  deriving DecidableEq, Repr

/-- Model of `refreshModules`: recompute the module table and reset the globals
table to `nil`; `da.imageTypes` is not touched.

```go
modules, err := loadModuleData(da.binaryInfo, new(localMemory))
if nil != err { return err }
da.modules = modules
da.globals = nil
``` -/
def refreshModules (computeModules : List Nat → Except String (List ModuleData))
    (st : DAState) : Except String DAState :=
  match computeModules st.images with
  | .error e => .error e
  | .ok ms => .ok { st with modules := ms, globals := none }

/-- Model of `LoadImage`: `LoadBinaryInfo` (first image) or `AddImage` (later
images) both extend `binaryInfo.Images` with the new image, then
`refreshModules` runs. -/
def loadImage (computeModules : List Nat → Except String (List ModuleData))
    (st : DAState) (img : Nat) : Except String DAState :=
  refreshModules computeModules { st with images := st.images ++ [img] }

/-- Model of `Close`:

```go
da.modules = nil
da.globals = nil
da.imageTypes = nil
runtime.SetFinalizer(da, nil)
return da.binaryInfo.Close()
``` -/
def close (st : DAState) : DAState :=
  { st with modules := [], globals := none, imageTypes := none,
            binaryClosed := true }

/-- Model of `loadGlobals`: rebuilds `da.globals` from `binaryInfo.packageVars`.
The walk over delve's package-variable descriptors (with its per-entry
skips) is abstracted as its resulting table `pkgVars`, a function of the
`binaryInfo` state only — which `Close` does not erase. -/
def loadGlobals (pkgVars : List (String × Nat)) (st : DAState) : DAState :=
  { st with globals := some pkgVars }

/-- Model of `FindGlobal`: lazily rebuild the globals table when it is `nil`, then
a map lookup; a missing name is `ErrNotFound`.  The returned state is the
receiver after the possible rebuild. -/
def findGlobal (pkgVars : List (String × Nat)) (st : DAState) (name : String) :
    DAState × Except CallError Nat :=
  let st1 := if st.globals.isNone then loadGlobals pkgVars st else st
  match (st1.globals.getD []).lookup name with
  | some v => (st1, .ok v)
  | none => (st1, .error .notFound)

/-- The `for name, value := range da.globals` body of `ForeachGlobal`:
`entries` is the sequence of map entries in the order the Go runtime
enumerates them — per the Go specification an unspecified permutation of
the map's contents.  Returns the entries on which the visitor was
invoked: iteration breaks at the first entry where `fn` answers
`false`. -/
def foreachGlobalVisit (fn : String → Nat → Bool) :
    List (String × Nat) → List (String × Nat)
  | [] => []
  | e :: rest =>
    if fn e.1 e.2 then e :: foreachGlobalVisit fn rest else [e]

/-! ## Helper lemmas on the validation loop -/

/-- Characterisation of `getInTyp` for a non-variadic call: every index
below the input count yields that input, everything beyond is `missing`. -/
theorem getInTyp_nonvariadic (inTyps : List RType) (inNames : List String)
    (i : Nat) :
    getInTyp false inTyps inNames i =
      if i < inTyps.length then
        .found (inTyps.getD i (.base "")) (inNames.getD i "")
      else .missing := by
  unfold getInTyp
  by_cases h0 : inTyps.length ≤ 0
  · rw [if_pos h0, if_neg (by omega)]
  · rw [if_neg h0]
    by_cases h1 : i < inTyps.length - 1
    · rw [if_pos h1, if_pos (by omega)]
    · rw [if_neg h1, if_neg (by simp)]

/-- Characterisation of `getInTyp` for a variadic call whose final input
is a slice: indices up to the second-to-last parameter yield that
parameter, every later index yields the element type of the final
parameter together with the final parameter's name. -/
theorem getInTyp_variadic (inTyps : List RType) (inNames : List String)
    (e : RType) (hlast : inTyps.getLast? = some (.slice e)) (i : Nat) :
    getInTyp true inTyps inNames i =
      if i < inTyps.length - 1 then
        .found (inTyps.getD i (.base "")) (inNames.getD i "")
      else .found e (inNames.getD (inNames.length - 1) "") := by
  have hne : inTyps ≠ [] := by
    intro h; rw [h] at hlast; simp at hlast
  have hlen : 0 < inTyps.length := List.length_pos.mpr hne
  have hgetD : inTyps.getD (inTyps.length - 1) (RType.base "") = .slice e := by
    have h1 : inTyps[inTyps.length - 1]? = some (.slice e) := by
      rw [← List.getLast?_eq_getElem?]; exact hlast
    rw [List.getD_eq_getElem inTyps (.base "") (by omega)]
    rw [List.getElem?_eq_getElem (by omega)] at h1
    exact Option.some_injective _ h1
  unfold getInTyp
  rw [if_neg (by omega)]
  by_cases h1 : i < inTyps.length - 1
  · rw [if_pos h1, if_pos h1]
  · rw [if_neg h1, if_pos rfl, hgetD, if_neg h1]
    rfl

/-- The validation loop accepts when every supplied argument is assignable
to the type `getInTyp` reports for its index. -/
theorem checkArgs_all_ok (asg : RType → RType → Bool) (variadic : Bool)
    (inTyps : List RType) (inNames : List String) :
    ∀ (args : List RType) (k : Nat),
    (∀ j, j < args.length → ∃ t nm,
        getInTyp variadic inTyps inNames (k + j) = .found t nm ∧
        asg (args.getD j (.base "")) t = true) →
    checkArgs asg variadic inTyps inNames k args = .ok := by
  intro args
  induction args with
  | nil => intro k _; rfl
  | cons a rest ih =>
    intro k h
    obtain ⟨t, nm, hg, ha⟩ := h 0 (Nat.succ_pos _)
    rw [Nat.add_zero] at hg
    rw [show (a :: rest).getD 0 (RType.base "") = a from rfl] at ha
    have hrec := ih (k + 1) (fun j hj => by
      obtain ⟨t', nm', hg', ha'⟩ := h (j + 1) (Nat.succ_lt_succ hj)
      refine ⟨t', nm', ?_, by simpa using ha'⟩
      rw [show k + 1 + j = k + (j + 1) by omega]; exact hg')
    show checkArgs asg variadic inTyps inNames k (a :: rest) = .ok
    unfold checkArgs
    rw [hg]
    simp only [ha, if_true]
    exact hrec

/-- The validation loop stops with a length-mismatch at the first index
where `getInTyp` answers `missing`, provided every earlier index was
found and assignable. -/
theorem checkArgs_len_mismatch (asg : RType → RType → Bool) (variadic : Bool)
    (inTyps : List RType) (inNames : List String) :
    ∀ (args : List RType) (k j : Nat),
    j < args.length →
    (∀ i, i < j → ∃ t nm,
        getInTyp variadic inTyps inNames (k + i) = .found t nm ∧
        asg (args.getD i (.base "")) t = true) →
    getInTyp variadic inTyps inNames (k + j) = .missing →
    checkArgs asg variadic inTyps inNames k args =
      .err (.lenMismatch (k + j)) := by
  intro args
  induction args with
  | nil => intro k j hj; exact absurd hj (by simp)
  | cons a rest ih =>
    intro k j hj hbefore hmiss
    cases j with
    | zero =>
      rw [Nat.add_zero] at hmiss ⊢
      show checkArgs asg variadic inTyps inNames k (a :: rest) = _
      unfold checkArgs
      rw [hmiss]
    | succ j' =>
      obtain ⟨t, nm, hg, ha⟩ := hbefore 0 (Nat.succ_pos _)
      rw [Nat.add_zero] at hg
      rw [show (a :: rest).getD 0 (RType.base "") = a from rfl] at ha
      have hrec := ih (k + 1) j' (by simpa using Nat.lt_of_succ_lt_succ hj)
        (fun i hi => by
          obtain ⟨t', nm', hg', ha'⟩ := hbefore (i + 1) (Nat.succ_lt_succ hi)
          refine ⟨t', nm', ?_, by simpa using ha'⟩
          rw [show k + 1 + i = k + (i + 1) by omega]; exact hg')
        (by rw [show k + 1 + j' = k + (j' + 1) by omega]; exact hmiss)
      show checkArgs asg variadic inTyps inNames k (a :: rest) = _
      unfold checkArgs
      rw [hg]
      simp only [ha, if_true]
      rw [hrec, show k + 1 + j' = k + (j' + 1) by omega]

/-- The validation loop stops with a type-mismatch error carrying the
index, the parameter name, the expected type name and the actual type
name, at the first index whose argument is not assignable. -/
theorem checkArgs_type_mismatch (asg : RType → RType → Bool) (variadic : Bool)
    (inTyps : List RType) (inNames : List String) :
    ∀ (args : List RType) (k j : Nat) (t : RType) (nm : String),
    j < args.length →
    (∀ i, i < j → ∃ t' nm',
        getInTyp variadic inTyps inNames (k + i) = .found t' nm' ∧
        asg (args.getD i (.base "")) t' = true) →
    getInTyp variadic inTyps inNames (k + j) = .found t nm →
    asg (args.getD j (.base "")) t = false →
    checkArgs asg variadic inTyps inNames k args =
      .err (.typeMismatch (k + j) nm t.str (args.getD j (.base "")).str) := by
  intro args
  induction args with
  | nil => intro k j t nm hj; exact absurd hj (by simp)
  | cons a rest ih =>
    intro k j t nm hj hbefore hfound hfail
    cases j with
    | zero =>
      rw [Nat.add_zero] at hfound ⊢
      rw [show (a :: rest).getD 0 (RType.base "") = a from rfl] at hfail ⊢
      show checkArgs asg variadic inTyps inNames k (a :: rest) = _
      unfold checkArgs
      rw [hfound]
      simp only [hfail, Bool.false_eq_true, if_false]
    | succ j' =>
      obtain ⟨t0, nm0, hg0, ha0⟩ := hbefore 0 (Nat.succ_pos _)
      rw [Nat.add_zero] at hg0
      rw [show (a :: rest).getD 0 (RType.base "") = a from rfl] at ha0
      have hrec := ih (k + 1) j' t nm (by simpa using Nat.lt_of_succ_lt_succ hj)
        (fun i hi => by
          obtain ⟨t', nm', hg', ha'⟩ := hbefore (i + 1) (Nat.succ_lt_succ hi)
          refine ⟨t', nm', ?_, by simpa using ha'⟩
          rw [show k + 1 + i = k + (i + 1) by omega]; exact hg')
        (by rw [show k + 1 + j' = k + (j' + 1) by omega]; exact hfound)
        (by simpa using hfail)
      show checkArgs asg variadic inTyps inNames k (a :: rest) = _
      unfold checkArgs
      rw [hg0]
      simp only [ha0, if_true]
      rw [hrec, show k + 1 + j' = k + (j' + 1) by omega]
      simp

/-! ## Claim theorems -/

/-- C7: `resolveTypedef` unwraps typedef, qualifier and parametric
(generic-instantiation) wrappers until a base descriptor is reached
(termination is structural: descriptors are finite trees, the acyclicity
premise), its result is never itself a wrapper, it is idempotent, and on
an already-canonical descriptor it is the identity. -/
theorem resolveTypedef_canonical (t : GodwarfType) :
    (resolveTypedef t).isWrapper = false ∧
    resolveTypedef (resolveTypedef t) = resolveTypedef t ∧
    (t.isWrapper = false → resolveTypedef t = t) := by
  induction t with
  | typedefType n s ih =>
    exact ⟨ih.1, ih.2.1, fun h => by simp [GodwarfType.isWrapper] at h⟩
  | qualType n s ih =>
    exact ⟨ih.1, ih.2.1, fun h => by simp [GodwarfType.isWrapper] at h⟩
  | parametricType s ih =>
    exact ⟨ih.1, ih.2.1, fun h => by simp [GodwarfType.isWrapper] at h⟩
  | ptrType s ih => exact ⟨rfl, rfl, fun _ => rfl⟩
  | structType n => exact ⟨rfl, rfl, fun _ => rfl⟩
  | enumType n => exact ⟨rfl, rfl, fun _ => rfl⟩
  | baseType n => exact ⟨rfl, rfl, fun _ => rfl⟩

/-- Witness for C7: a doubly wrapped descriptor canonicalises to a
non-wrapper, idempotently; an already-canonical descriptor is fixed. -/
theorem resolveTypedef_canonical_witness :
    (resolveTypedef (GodwarfType.typedefType "main.MyInt"
        (GodwarfType.qualType "const" (GodwarfType.baseType "int")))).isWrapper
      = false ∧
    resolveTypedef (resolveTypedef (GodwarfType.typedefType "main.MyInt"
        (GodwarfType.qualType "const" (GodwarfType.baseType "int")))) =
      resolveTypedef (GodwarfType.typedefType "main.MyInt"
        (GodwarfType.qualType "const" (GodwarfType.baseType "int"))) ∧
    resolveTypedef (GodwarfType.baseType "int") = GodwarfType.baseType "int" :=
  ⟨(resolveTypedef_canonical _).1, (resolveTypedef_canonical _).2.1,
   (resolveTypedef_canonical (GodwarfType.baseType "int")).2.2 rfl⟩

/-- C3: for a name for which the debug info reports one or more matching
functions, `findFunc` — and with it `FindFuncEntry`, `FindFuncPc`,
`FindFuncType`, `FindFunc` and `CallFunc` — selects the last match in
enumeration order (consistency across repeated calls is definitional:
the embedding is a pure function of the image set); when no function
matches, `ErrNotFound` is returned by all of them. -/
theorem findFunc_picks_last (env : DwarfAssemblyEnv) (name : String)
    (variadic : Bool) (args : List RType) :
    (∀ f, (env.findFunction name).getLast? = some f →
      findFuncEntry env name = .ok f ∧
      findFuncPc env name = .ok f.entry ∧
      findFuncType env name variadic = findFuncTypeFrom env f variadic ∧
      findFuncValue env name variadic =
        (match findFuncTypeFrom env f variadic with
         | .panicked s => .panicked s
         | .failed e => .failed e
         | .ok t => .ok (createFuncForCodePtr t f.entry)) ∧
      callFunc env name variadic args = callFuncFrom env f variadic args) ∧
    (env.findFunction name = [] →
      findFuncEntry env name = .error .notFound ∧
      findFuncPc env name = .error .notFound ∧
      findFuncType env name variadic = .failed .notFound ∧
      findFuncValue env name variadic = .failed .notFound ∧
      callFunc env name variadic args = .failed .notFound) := by
  constructor
  · intro f hf
    have hff : findFunc (env.findFunction name) = .ok f := by
      unfold findFunc; rw [hf]
    refine ⟨?_, ?_, ?_, ?_, ?_⟩
    · unfold findFuncEntry; exact hff
    · simp only [findFuncPc, hff]
    · simp only [findFuncType, hff]
    · simp only [findFuncValue, findFuncPc, findFuncType, hff]
    · simp only [callFunc, hff]
  · intro hnil
    have hff : findFunc (env.findFunction name) = .error .notFound := by
      unfold findFunc; rw [hnil]; rfl
    refine ⟨?_, ?_, ?_, ?_, ?_⟩
    · unfold findFuncEntry; exact hff
    · simp only [findFuncPc, hff]
    · simp only [findFuncType, hff]
    · simp only [findFuncValue, findFuncPc, findFuncType, hff]
    · simp only [callFunc, hff]

/-- Two debug-info matches for one generic instantiation name, in
enumeration order; `findFunc` must pick the second. -/
def c3F1 : ProcFunction := ⟨"main.genericMin[int]", 4096⟩

/-- Second (last) enumeration match for the C3 witness. -/
def c3F2 : ProcFunction := ⟨"main.genericMin[int]", 8192⟩

/-- Environment for the C3 witness: one name with two matches. -/
def c3Env : DwarfAssemblyEnv where
  findFunction := fun n =>
    if n = "main.genericMin[int]" then [c3F1, c3F2] else []
  argTypes := fun _ =>
    .ok ⟨[.base "int", .slice (.base "int")], [.base "int"],
         ["a", "nums"], ["~r0"]⟩
  assignable := fun a b => a == b

/-- Witness for C3: with two matches `findFunc` answers the last one
(entry `8192`, not `4096`); with no match, `ErrNotFound`. -/
theorem findFunc_picks_last_witness :
    findFuncEntry c3Env "main.genericMin[int]" = .ok c3F2 ∧
    findFuncPc c3Env "main.genericMin[int]" = .ok 8192 ∧
    findFuncEntry c3Env "main.absent" = .error CallError.notFound :=
  ⟨((findFunc_picks_last c3Env "main.genericMin[int]" false []).1 c3F2 rfl).1,
   ((findFunc_picks_last c3Env "main.genericMin[int]" false []).1 c3F2 rfl).2.1,
   ((findFunc_picks_last c3Env "main.absent" false []).2 rfl).1⟩

/-- C10: when the derived input type list is empty or its last element is
not a slice type, `reflect.FuncOf` with `variadic = true` panics, so
`FindFuncType(name, true)` and `CallFunc(name, true, args)` abort with a
panic instead of returning an error: the `variadic = true` path is not
total on functions whose trailing parameter is not a sequence. -/
theorem variadic_funcOf_panics (env : DwarfAssemblyEnv) (name : String)
    (f : ProcFunction) (sig : FuncSig) (args : List RType)
    (hfind : (env.findFunction name).getLast? = some f)
    (hsig : env.argTypes f = Except.ok sig)
    (hbad : lastIsSlice sig.inTyps = false) :
    findFuncType env name true =
      .panicked "reflect.FuncOf: last arg of variadic func must be slice" ∧
    callFunc env name true args =
      .panicked "reflect.FuncOf: last arg of variadic func must be slice" := by
  have hff : findFunc (env.findFunction name) = .ok f := by
    unfold findFunc; rw [hfind]
  have hfo : reflectFuncOf sig.inTyps sig.outTyps true = none := by
    unfold reflectFuncOf; rw [hbad]; rfl
  constructor
  · simp only [findFuncType, findFuncTypeFrom, hff, hsig, hfo]
  · simp only [callFunc, callFuncFrom, hff, hsig, hfo]

/-- Environment for the C10 witness: a one-parameter function of a plain
`int` (its last input is not a slice). -/
def c10Env : DwarfAssemblyEnv where
  findFunction := fun n => if n = "main.testAdd" then [⟨"main.testAdd", 64⟩] else []
  argTypes := fun _ => .ok ⟨[.base "int", .base "int"], [.base "int"],
                            ["a", "b"], ["~r0"]⟩
  assignable := fun a b => a == b

/-- Witness for C10: forcing `variadic = true` on a function whose last
parameter is `int` panics in `reflect.FuncOf` for both operations. -/
theorem variadic_funcOf_panics_witness :
    findFuncType c10Env "main.testAdd" true =
      .panicked "reflect.FuncOf: last arg of variadic func must be slice" ∧
    callFunc c10Env "main.testAdd" true [RType.base "int", RType.base "int"] =
      .panicked "reflect.FuncOf: last arg of variadic func must be slice" :=
  variadic_funcOf_panics c10Env "main.testAdd" ⟨"main.testAdd", 64⟩
    ⟨[.base "int", .base "int"], [.base "int"], ["a", "b"], ["~r0"]⟩
    [RType.base "int", RType.base "int"] rfl rfl rfl

/-- C1: for a variadic call whose derived input list is non-empty (with a
slice as final input, as `reflect.FuncOf` requires), every argument at an
index below `n - 1` is validated against that input type and every
argument at an index `≥ n - 1` against the element type of the final
input; the first assignability failure returns a type-mismatch error
carrying the index, the parameter name, the expected type name and the
actual type name, and the target is not invoked; if all arguments pass,
the call proceeds to the reflective invocation. -/
theorem callFunc_variadic_validation (env : DwarfAssemblyEnv) (name : String)
    (f : ProcFunction) (sig : FuncSig) (e : RType) (args : List RType)
    (hfind : (env.findFunction name).getLast? = some f)
    (hsig : env.argTypes f = Except.ok sig)
    (hlast : sig.inTyps.getLast? = some (.slice e)) :
    ((∀ j, j < args.length →
        env.assignable (args.getD j (.base ""))
          (if j < sig.inTyps.length - 1 then sig.inTyps.getD j (.base "") else e)
          = true) →
      callFunc env name true args =
        reflectCall f.entry sig.inTyps.length true args) ∧
    (∀ j, j < args.length →
      (∀ i, i < j →
        env.assignable (args.getD i (.base ""))
          (if i < sig.inTyps.length - 1 then sig.inTyps.getD i (.base "") else e)
          = true) →
      env.assignable (args.getD j (.base ""))
        (if j < sig.inTyps.length - 1 then sig.inTyps.getD j (.base "") else e)
        = false →
      callFunc env name true args =
        .failed (.typeMismatch j
          (if j < sig.inTyps.length - 1 then sig.inNames.getD j ""
           else sig.inNames.getD (sig.inNames.length - 1) "")
          (if j < sig.inTyps.length - 1 then sig.inTyps.getD j (.base "") else e).str
          (args.getD j (.base "")).str) ∧
      ∀ r, callFunc env name true args ≠ .ok r) := by
  have hff : findFunc (env.findFunction name) = .ok f := by
    unfold findFunc; rw [hfind]
  have hslice : lastIsSlice sig.inTyps = true := by
    unfold lastIsSlice; rw [hlast]; rfl
  have hfo : reflectFuncOf sig.inTyps sig.outTyps true =
      some ⟨sig.inTyps, sig.outTyps, true⟩ := by
    unfold reflectFuncOf; rw [hslice]; rfl
  have hred : callFunc env name true args =
      (match checkArgs env.assignable true sig.inTyps sig.inNames 0 args with
       | .panicElem => .panicked "reflect: Elem of invalid type"
       | .err e' => .failed e'
       | .ok => reflectCall f.entry sig.inTyps.length true args) := by
    simp only [callFunc, callFuncFrom, hff, hsig, hfo]
  have hget : ∀ j, getInTyp true sig.inTyps sig.inNames (0 + j) =
      .found (if j < sig.inTyps.length - 1 then sig.inTyps.getD j (.base "") else e)
        (if j < sig.inTyps.length - 1 then sig.inNames.getD j ""
         else sig.inNames.getD (sig.inNames.length - 1) "") := by
    intro j
    rw [Nat.zero_add, getInTyp_variadic sig.inTyps sig.inNames e hlast j]
    by_cases h : j < sig.inTyps.length - 1 <;> simp [h]
  constructor
  · intro hall
    have hok : checkArgs env.assignable true sig.inTyps sig.inNames 0 args
        = .ok := by
      apply checkArgs_all_ok
      intro j hj
      exact ⟨_, _, hget j, hall j hj⟩
    rw [hred, hok]
  · intro j hj hbefore hfail
    have herr := checkArgs_type_mismatch env.assignable true sig.inTyps
      sig.inNames args 0 j _ _ hj
      (fun i hi => ⟨_, _, hget i, hbefore i hi⟩) (hget j) hfail
    rw [Nat.zero_add] at herr
    refine ⟨by rw [hred, herr], fun r h => ?_⟩
    rw [hred, herr] at h
    simp at h

/-- Environment for the C1 witness: a variadic signature of shape
`func(a int, nums ...int) int`. -/
def c1Env : DwarfAssemblyEnv where
  findFunction := fun n =>
    if n = "main.testMax" then [⟨"main.testMax", 4096⟩] else []
  argTypes := fun _ =>
    .ok ⟨[.base "int", .slice (.base "int")], [.base "int"],
         ["a", "nums"], ["~r0"]⟩
  assignable := fun a b => a == b

/-- Witness for C1: three `int` arguments against `(int, []int)` all pass —
the third is matched against the element type of `[]int` — and the
invocation proceeds; a `string` in trailing position is rejected with the
full mismatch diagnosis and no invocation happens. -/
theorem callFunc_variadic_validation_witness :
    callFunc c1Env "main.testMax" true
        [RType.base "int", RType.base "int", RType.base "int"] =
      .ok (4096, [RType.base "int", RType.base "int", RType.base "int"]) ∧
    callFunc c1Env "main.testMax" true
        [RType.base "int", RType.base "string"] =
      .failed (.typeMismatch 1 "nums" "int" "string") := by
  constructor
  · have h := (callFunc_variadic_validation c1Env "main.testMax"
        ⟨"main.testMax", 4096⟩
        ⟨[.base "int", .slice (.base "int")], [.base "int"], ["a", "nums"], ["~r0"]⟩
        (RType.base "int")
        [RType.base "int", RType.base "int", RType.base "int"]
        rfl rfl rfl).1 (by decide)
    rw [h]; rfl
  · have h := ((callFunc_variadic_validation c1Env "main.testMax"
        ⟨"main.testMax", 4096⟩
        ⟨[.base "int", .slice (.base "int")], [.base "int"], ["a", "nums"], ["~r0"]⟩
        (RType.base "int")
        [RType.base "int", RType.base "string"]
        rfl rfl rfl).2 1 (by decide) (by decide) (by decide)).1
    rw [h]; rfl

/-- C2 (amended): for a non-variadic call, one extra positional argument
fails with the length-mismatch error at the correct offending index `n`
(the first index with no parameter), provided the first `n` arguments are
assignable; but with one argument fewer than `n` the validation loop —
which only iterates over the supplied arguments — passes, and the
reflective call is performed, aborting with reflect's own
too-few-arguments panic rather than a length-mismatch error. -/
theorem callFunc_arity (env : DwarfAssemblyEnv) (name : String)
    (f : ProcFunction) (sig : FuncSig) (argsMore argsFewer : List RType)
    (hfind : (env.findFunction name).getLast? = some f)
    (hsig : env.argTypes f = Except.ok sig)
    (hmore : argsMore.length = sig.inTyps.length + 1)
    (hasgMore : ∀ j, j < sig.inTyps.length →
      env.assignable (argsMore.getD j (.base ""))
        (sig.inTyps.getD j (.base "")) = true)
    (hfewer : argsFewer.length + 1 = sig.inTyps.length)
    (hasgFewer : ∀ j, j < argsFewer.length →
      env.assignable (argsFewer.getD j (.base ""))
        (sig.inTyps.getD j (.base "")) = true) :
    callFunc env name false argsMore =
      .failed (.lenMismatch sig.inTyps.length) ∧
    callFunc env name false argsFewer =
      .panicked "reflect: Call with too few input arguments" := by
  have hff : findFunc (env.findFunction name) = .ok f := by
    unfold findFunc; rw [hfind]
  have hfo : reflectFuncOf sig.inTyps sig.outTyps false =
      some ⟨sig.inTyps, sig.outTyps, false⟩ := rfl
  have hget : ∀ j, j < sig.inTyps.length →
      getInTyp false sig.inTyps sig.inNames (0 + j) =
        .found (sig.inTyps.getD j (.base "")) (sig.inNames.getD j "") := by
    intro j hj
    rw [Nat.zero_add, getInTyp_nonvariadic, if_pos hj]
  constructor
  · have herr := checkArgs_len_mismatch env.assignable false sig.inTyps
      sig.inNames argsMore 0 sig.inTyps.length (by omega)
      (fun i hi => ⟨_, _, hget i hi, hasgMore i hi⟩)
      (by rw [Nat.zero_add, getInTyp_nonvariadic, if_neg (by omega)])
    rw [Nat.zero_add] at herr
    simp only [callFunc, callFuncFrom, hff, hsig, hfo, herr]
  · have hok : checkArgs env.assignable false sig.inTyps sig.inNames 0
        argsFewer = .ok := by
      apply checkArgs_all_ok
      intro j hj
      exact ⟨_, _, hget j (by omega), hasgFewer j hj⟩
    simp only [callFunc, callFuncFrom, hff, hsig, hfo, hok]
    unfold reflectCall
    rw [if_neg (by simp), if_pos (by omega)]

/-- Environment for C2: a plain two-parameter signature
`func(a int, b int) int`. -/
def c2Env : DwarfAssemblyEnv where
  findFunction := fun n =>
    if n = "main.testAdd" then [⟨"main.testAdd", 8192⟩] else []
  argTypes := fun _ =>
    .ok ⟨[.base "int", .base "int"], [.base "int"], ["a", "b"], ["~r0"]⟩
  assignable := fun a b => a == b

/-- Witness for C2 (amended): three arguments against two parameters give
the length mismatch at index `2`; one argument passes validation and the
reflective call panics about too few arguments. -/
theorem callFunc_arity_witness :
    callFunc c2Env "main.testAdd" false
        [RType.base "int", RType.base "int", RType.base "int"] =
      .failed (.lenMismatch 2) ∧
    callFunc c2Env "main.testAdd" false [RType.base "int"] =
      .panicked "reflect: Call with too few input arguments" :=
  callFunc_arity c2Env "main.testAdd" ⟨"main.testAdd", 8192⟩
    ⟨[.base "int", .base "int"], [.base "int"], ["a", "b"], ["~r0"]⟩
    [RType.base "int", RType.base "int", RType.base "int"] [RType.base "int"]
    rfl rfl rfl (by decide) rfl (by decide)

/-- Counterexample for C2 as stated: calling the two-parameter
`main.testAdd` with a single argument does not fail with a
length-mismatch error — validation passes over the one supplied argument
and the reflective call is performed, aborting with reflect's own panic;
in particular the result is not a `lenMismatch` error at any index. -/
theorem callFunc_too_few_counterexample :
    callFunc c2Env "main.testAdd" false [RType.base "int"] =
      .panicked "reflect: Call with too few input arguments" ∧
    callFunc c2Env "main.testAdd" false [RType.base "int"] ≠
      .failed (.lenMismatch 1) := by
  constructor
  · rfl
  · intro h
    rw [show callFunc c2Env "main.testAdd" false [RType.base "int"] =
        .panicked "reflect: Call with too few input arguments" from rfl] at h
    exact Outcome.noConfusion h

/-- For a positive running index the fallback loop no longer skips
anything: it yields the first non-zero `findImageType` hit, or the
not-found error. -/
theorem fallbackGo_pos (name : String) :
    ∀ (imgs : List TypeImage) (k : Nat), k ≠ 0 →
    fallbackGo name k imgs =
      (match firstHit name imgs with
       | some a => Except.ok a
       | none => Except.error ("could not find runtime type for type:" ++ name)) := by
  intro imgs
  induction imgs with
  | nil => intro k _; rfl
  | cons img rest ih =>
    intro k hk
    show fallbackGo name k (img :: rest) = _
    unfold fallbackGo
    rw [if_neg hk]
    by_cases h : findImageType img name ≠ 0
    · rw [if_pos h]
      unfold firstHit
      rw [if_pos h]
    · rw [if_neg h, ih (k + 1) (by omega)]
      have hfh : firstHit name (img :: rest) = firstHit name rest := by
        show (if findImageType img name ≠ 0 then some (findImageType img name)
              else firstHit name rest) = firstHit name rest
        rw [if_neg h]
      rw [hfh]

/-- The full fallback scan skips exactly the image at index `0` and then
behaves as the plain first-hit search. -/
theorem fallbackScan_eq (images : List TypeImage) (name : String) :
    fallbackScan images name =
      (match firstHit name (images.drop 1) with
       | some a => Except.ok a
       | none => Except.error ("could not find runtime type for type:" ++ name)) := by
  cases images with
  | nil => rfl
  | cons img rest =>
    show fallbackGo name 0 (img :: rest) = _
    unfold fallbackGo
    rw [if_pos rfl]
    exact fallbackGo_pos name rest 1 one_ne_zero

/-- C5: when the DWARF entry for the named type carries a non-zero
runtime-type back-reference `off`, the resolved address is
`md.types + off` in 64-bit modular arithmetic whenever that candidate
lies inside `[md.types, md.etypes)`, and the raw `off` itself whenever
the candidate falls outside that range. -/
theorem dwarfToRuntimeType_direct (images : List TypeImage)
    (index offset : Nat) (name : String) (img : TypeImage) (e : DwarfEntry)
    (off : Nat) (md : ModuleData)
    (himg : images[index]? = some img)
    (hread : img.readAt offset = some e)
    (hname : e.name = some name)
    (hoff : e.goRuntimeType = some off)
    (hne : off ≠ 0)
    (hmd : img.md = some md) :
    dwarfToRuntimeType images index offset name =
      .ok (if md.types ≤ (md.types + off) % 2 ^ 64 ∧
             (md.types + off) % 2 ^ 64 < md.etypes
           then (md.types + off) % 2 ^ 64 else off) := by
  simp only [dwarfToRuntimeType, himg, hread, hname, hoff, hmd, Option.getD_some]
  rw [if_neg (by simp), if_neg hne]
  by_cases h : (md.types + off) % 2 ^ 64 < md.types ∨
      (md.types + off) % 2 ^ 64 ≥ md.etypes
  · rw [if_pos h, if_neg (by omega)]
  · rw [if_neg h, if_pos (by omega)]

/-- Image for the C5 witness: a type entry at DWARF offset `40` with a
back-reference `16` into a module whose type table is `[1000, 2000)`. -/
def c5Img : TypeImage where
  readAt := fun off => if off = 40 then some ⟨some "main.T", some 16⟩ else none
  runtimeTypeToDIE := []
  md := some ⟨0, 0, 1000, 2000⟩

/-- Witness for C5: the candidate `1000 + 16` lies inside the type range,
so it is the resolved address. -/
theorem dwarfToRuntimeType_direct_witness :
    dwarfToRuntimeType [c5Img] 0 40 "main.T" = .ok 1016 := by
  have h := dwarfToRuntimeType_direct [c5Img] 0 40 "main.T" c5Img
    ⟨some "main.T", some 16⟩ 16 ⟨0, 0, 1000, 2000⟩ rfl rfl rfl rfl
    (by omega) rfl
  rw [h]
  norm_num

/-- C6: when the debug entry carries no runtime-type back-reference
(attribute absent or zero), `dwarfToRuntimeType` scans the loaded images
excluding index `0`, in index order, through each image's
type-table-to-debug-entry name map, returning the first non-zero address
hit, and fails with an error when no image yields one. -/
theorem dwarfToRuntimeType_fallback (images : List TypeImage)
    (index offset : Nat) (name : String) (img : TypeImage) (e : DwarfEntry)
    (himg : images[index]? = some img)
    (hread : img.readAt offset = some e)
    (hname : e.name = some name)
    (hzero : e.goRuntimeType.getD 0 = 0) :
    dwarfToRuntimeType images index offset name =
      (match firstHit name (images.drop 1) with
       | some a => Except.ok a
       | none => Except.error ("could not find runtime type for type:" ++ name)) := by
  simp only [dwarfToRuntimeType, himg, hread, hname]
  rw [if_neg (by simp), if_pos hzero]
  exact fallbackScan_eq images name

/-- Primary image for the C6 witness: its entry for `main.T` has no
back-reference. -/
def c6Img0 : TypeImage where
  readAt := fun off => if off = 40 then some ⟨some "main.T", none⟩ else none
  runtimeTypeToDIE := []
  md := none

/-- First secondary image for the C6 witness: yields no address. -/
def c6Img1 : TypeImage where
  readAt := fun _ => none
  runtimeTypeToDIE := []
  md := some ⟨0, 0, 0, 0⟩

/-- Second secondary image for the C6 witness: its type table maps
`main.T` to the runtime address `100 + 300 = 400`. -/
def c6Img2 : TypeImage where
  readAt := fun off => if off = 7 then some ⟨some "main.T", none⟩ else none
  runtimeTypeToDIE := [(300, 7)]
  md := some ⟨0, 0, 100, 1000⟩

/-- Witness for C6: with no back-reference the scan skips the primary
image, finds nothing in the first secondary image and answers the second
secondary image's address `400`. -/
theorem dwarfToRuntimeType_fallback_witness :
    dwarfToRuntimeType [c6Img0, c6Img1, c6Img2] 0 40 "main.T" = .ok 400 := by
  have h := dwarfToRuntimeType_fallback [c6Img0, c6Img1, c6Img2] 0 40 "main.T"
    c6Img0 ⟨some "main.T", none⟩ rfl rfl rfl rfl
  rw [h]
  rfl

/-- C4 (amended): adding an image recomputes the module table and resets
the global-symbol table to nil (to be rebuilt lazily), but the per-image
type cache `imageTypes` is retained unchanged — `refreshModules` never
touches it; it is only cleared by `Close`. -/
theorem loadImage_invalidation
    (computeModules : List Nat → Except String (List ModuleData))
    (st : DAState) (img : Nat) (ms : List ModuleData)
    (h : computeModules (st.images ++ [img]) = Except.ok ms) :
    loadImage computeModules st img =
      .ok { images := st.images ++ [img], modules := ms, globals := none,
            imageTypes := st.imageTypes, binaryClosed := st.binaryClosed } := by
  simp only [loadImage, refreshModules, h]

/-- State for the C4 witness and counterexample: a populated per-image
type cache before the load. -/
def c4State : DAState where
  images := [1]
  modules := []
  globals := none
  imageTypes := some [(1, [("main.T", 5)])]
  binaryClosed := false

/-- Witness for C4 (amended): a successful load on `c4State`. -/
theorem loadImage_invalidation_witness :
    loadImage (fun _ => Except.ok ([] : List ModuleData)) c4State 2 =
      .ok { images := [1, 2], modules := [], globals := none,
            imageTypes := some [(1, [("main.T", 5)])], binaryClosed := false } :=
  loadImage_invalidation (fun _ => Except.ok []) c4State 2 [] rfl

/-- Counterexample for C4 as stated: after `LoadImage` on a state whose
per-image type cache holds an entry, the cache still holds exactly that
entry — it is not invalidated together with the other two caches. -/
theorem loadImage_retains_imageTypes_counterexample :
    loadImage (fun _ => Except.ok ([] : List ModuleData)) c4State 2 =
      .ok { images := [1, 2], modules := [], globals := none,
            imageTypes := some [(1, [("main.T", 5)])], binaryClosed := false } ∧
    c4State.imageTypes = some [(1, [("main.T", 5)])] ∧
    some [(1, [("main.T", 5)])] ≠
      (none : Option (List (Nat × List (String × Nat)))) := by
  refine ⟨rfl, rfl, by simp⟩

/-- C9 (amended): `Close` clears all three caches and releases the binary
handles, but no operation consults a closed flag: a subsequent
`FindGlobal` lazily rebuilds the globals table from the binary info and
answers from the rebuilt table, instead of failing with a
Closed/NotSupported condition. -/
theorem close_clears_and_ops_rebuild (pkgVars : List (String × Nat))
    (st : DAState) (name : String) :
    (close st).modules = [] ∧ (close st).globals = none ∧
    (close st).imageTypes = none ∧ (close st).binaryClosed = true ∧
    findGlobal pkgVars (close st) name =
      (loadGlobals pkgVars (close st),
       match pkgVars.lookup name with
       | some v => Except.ok v
       | none => Except.error CallError.notFound) := by
  refine ⟨rfl, rfl, rfl, rfl, ?_⟩
  cases h : pkgVars.lookup name <;>
    simp [findGlobal, close, loadGlobals, h]

/-- State for the C9 counterexample: a live registry about to be closed. -/
def c9State : DAState where
  images := [1]
  modules := [⟨0, 0, 0, 0⟩]
  globals := some [("main.testGlobalInt", 5)]
  imageTypes := some [(1, [("main.T", 3)])]
  binaryClosed := false

/-- Counterexample for C9 as stated: `FindGlobal` on the closed registry
rebuilds the globals table and answers `ok 7` — it does not fail with the
NotSupported (or any) error. -/
theorem close_no_closed_error_counterexample :
    (findGlobal [("main.testGlobalInt", 7)] (close c9State)
        "main.testGlobalInt").2 = Except.ok 7 ∧
    (findGlobal [("main.testGlobalInt", 7)] (close c9State)
        "main.testGlobalInt").2 ≠ Except.error CallError.notSupport := by
  refine ⟨rfl, ?_⟩
  intro h
  rw [show (findGlobal [("main.testGlobalInt", 7)] (close c9State)
      "main.testGlobalInt").2 = Except.ok 7 from rfl] at h
  exact Except.noConfusion h

/-- C8 (amended): the `ForeachGlobal` loop stops at the first entry on
which the visitor answers `false`: with the runtime enumerating the
backing map as `entries`, if the visitor accepts the first `j` entries
and rejects entry `j`, exactly the first `j + 1` entries are visited. -/
theorem foreachGlobal_early_termination (fn : String → Nat → Bool) :
    ∀ (entries : List (String × Nat)) (j : Nat),
    j < entries.length →
    (∀ i, i < j →
      fn (entries.getD i ("", 0)).1 (entries.getD i ("", 0)).2 = true) →
    fn (entries.getD j ("", 0)).1 (entries.getD j ("", 0)).2 = false →
    foreachGlobalVisit fn entries = entries.take (j + 1) := by
  intro entries
  induction entries with
  | nil => intro j hj; exact absurd hj (by simp)
  | cons a rest ih =>
    intro j hj hbefore hstop
    cases j with
    | zero =>
      rw [show ((a :: rest).getD 0 ("", 0)) = a from rfl] at hstop
      unfold foreachGlobalVisit
      rw [hstop]
      simp
    | succ j' =>
      have h0 := hbefore 0 (Nat.succ_pos _)
      rw [show ((a :: rest).getD 0 ("", 0)) = a from rfl] at h0
      unfold foreachGlobalVisit
      rw [h0]
      simp only [if_true]
      rw [ih j' (by simpa using Nat.lt_of_succ_lt_succ hj)
          (fun i hi => by simpa using hbefore (i + 1) (Nat.succ_lt_succ hi))
          (by simpa using hstop)]
      simp

/-- Witness for C8 (amended): the visitor rejects the second of three
entries, so exactly the first two are visited and the third is not. -/
theorem foreachGlobal_early_termination_witness :
    foreachGlobalVisit (fun n _ => !(n == "main.b"))
        [("main.a", 1), ("main.b", 2), ("main.c", 3)] =
      [("main.a", 1), ("main.b", 2)] := by
  have h := foreachGlobal_early_termination (fun n _ => !(n == "main.b"))
    [("main.a", 1), ("main.b", 2), ("main.c", 3)] 1
    (by decide) (by decide) (by decide)
  simpa using h

/-- Counterexample for C8 as stated: the backing mapping is a Go map,
whose range order is unspecified — the runtime may legally enumerate the
entries inserted as `[a, b]` in the order `[b, a]` (a permutation of the
contents); an always-continue visitor then observes `[b, a]`, not the
insertion order. -/
theorem foreachGlobal_order_counterexample :
    List.Perm [("main.b", 2), ("main.a", 1)] [("main.a", 1), ("main.b", 2)] ∧
    foreachGlobalVisit (fun _ _ => true) [("main.b", 2), ("main.a", 1)] =
      [("main.b", 2), ("main.a", 1)] ∧
    foreachGlobalVisit (fun _ _ => true) [("main.b", 2), ("main.a", 1)] ≠
      [("main.a", 1), ("main.b", 2)] := by
  refine ⟨List.Perm.swap _ _ _, rfl, by decide⟩

end Assembly
